import Mathlib

/-!
Verification of the FermenterManager core (FermenterManager.py) against its
natural-language specification.

Modelling conventions:
* Python floats are modelled as exact rationals (`ℚ`); `round(x, 2)` is modelled
  as round-half-to-even on rationals (`round2`), matching Python's `round`.
* Python strings are Lean `String`s; f-string formatting of numbers is
  abstracted by `toString` on `ℚ` (the precise digits of Python float
  formatting are irrelevant to every claim, only determinism matters).
* Stateful methods of `FermenterManager` become pure functions from a manager
  state to an optional result; `none` models an uncaught Python exception
  (IndexError / AttributeError / TypeError).  Calls to `save_state` /
  `save_history` are modelled by incrementing the counters `stateSaves` /
  `historySaves` in the state, so "no save occurred" is expressible.
* Current time (`iso_now`) and generated ids are threaded as explicit
  parameters since they are read from the ambient clock in Python.
-/

namespace FM

/-! ## Rounding (Python `round(x, 2)` on rationals: round-half-to-even) -/

/-- Round a rational to the nearest integer, ties to even
(banker's rounding, as Python's builtin `round`). -/
def roundHalfEven (q : ℚ) : ℤ :=
  let f : ℤ := ⌊q⌋
  if q - (f : ℚ) < 1/2 then f
  else if (1/2 : ℚ) < q - (f : ℚ) then f + 1
  else if f % 2 = 0 then f else f + 1

/-- Python `round(x, 2)`. -/
def round2 (q : ℚ) : ℚ := ((roundHalfEven (q * 100) : ℤ) : ℚ) / 100

/-! ## `calc_abv` (source lines 163-198)

```
og_f, fg_f = float(og), float(fg)
if og_f <= fg_f: return 0.0
abw_numerator = 76.08 * (og_f - fg_f)
abw_denominator = 1.775 - og_f
abv_conversion_factor = fg_f / 0.794
final_abv = (abw_numerator / abw_denominator) * abv_conversion_factor
return round(final_abv, 2)
-- except ZeroDivisionError: return 0.0
```
The `ZeroDivisionError` guard (denominator `1.775 - og == 0`) is made explicit;
the `ValueError` branch (non-numeric input) is outside the rational model. -/
def calc_abv (og fg : ℚ) : ℚ :=
  if og ≤ fg then 0
  else if 1775/1000 - og = 0 then 0
  else round2 (7608/100 * (og - fg) / (1775/1000 - og) * (fg / (794/1000)))

/-! ## Brew entity (source lines 222-323) -/

/-- One event record of a brew log: `{time, type, text}`. -/
structure LogEntry where
  time : String
  type : String
  text : String
deriving DecidableEq, Repr

/-- The `Brew` entity, fields as in `Brew.__init__`. -/
structure Brew where
  id : String
  name : String
  category : String
  recipe : String
  notes : String
  start_date : String
  stage : String
  volume : ℚ
  original_volume : ℚ
  og : ℚ
  fg : ℚ
  ph : ℚ
  temp : ℚ
  log : List LogEntry
deriving DecidableEq, Repr

/-- `Brew.add_event`: append a timestamped entry to the log
(`now` is the ambient `iso_now()`). -/
def add_event (now e_type text : String) (b : Brew) : Brew :=
  { b with log := b.log ++ [⟨now, e_type, text⟩] }

/-- The text of the synthesized "Lifecycle: Created" event
(`f"Created: {self.name}. Start Vol: {self.volume}L"`). -/
def created_text (name : String) (volume : ℚ) : String :=
  "Created: " ++ name ++ ". Start Vol: " ++ toString volume ++ "L"

/-- The flat field mapping produced by `Brew.to_dict` (which returns
`self.__dict__`, i.e. exactly the fourteen attributes). -/
structure BrewDict where
  id : String
  name : String
  category : String
  recipe : String
  notes : String
  start_date : String
  stage : String
  volume : ℚ
  original_volume : ℚ
  og : ℚ
  fg : ℚ
  ph : ℚ
  temp : ℚ
  log : List LogEntry
deriving DecidableEq, Repr

/-- `Brew.to_dict`: serialize to the flat mapping (`return self.__dict__`). -/
def to_dict (b : Brew) : BrewDict :=
  ⟨b.id, b.name, b.category, b.recipe, b.notes, b.start_date, b.stage,
   b.volume, b.original_volume, b.og, b.fg, b.ph, b.temp, b.log⟩

/-- `Brew.from_dict` / `Brew.__init__` on a complete flat mapping: every key is
present, so only the `or`-default logic remains:
`self.id = kwargs.get("id") or f"brew_..."` regenerates on a falsy (empty) id,
`self.start_date = kwargs.get("start_date") or iso_now()` likewise, and an
empty `log` gets the synthesized "Lifecycle: Created" entry.
`now` models `iso_now()` and `genId` the generated `brew_{ms}` id. -/
def from_dict (now genId : String) (d : BrewDict) : Brew :=
  { id := if d.id = "" then genId else d.id
    name := d.name
    category := d.category
    recipe := d.recipe
    notes := d.notes
    start_date := if d.start_date = "" then now else d.start_date
    stage := d.stage
    volume := d.volume
    original_volume := d.original_volume
    og := d.og
    fg := d.fg
    ph := d.ph
    temp := d.temp
    log := if d.log = [] then [⟨now, "Lifecycle", created_text d.name d.volume⟩]
           else d.log }

/-! ## FermenterManager state and mutators (source lines 599-809) -/

/-- One fermenter slot: `{'name': ..., 'brew': ...}`. -/
structure Slot where
  name : String
  brew : Option Brew
deriving DecidableEq, Repr

/-- An archive record: the brew's flat mapping plus the `archived_from` key
added by `archive_brew`. -/
structure ArchRecord where
  fields : BrewDict
  archived_from : String
deriving DecidableEq, Repr

/-- Manager state.  `stateSaves` / `historySaves` count the calls to
`save_state` / `save_history`, so claims about "no save occurred" are
expressible. -/
structure MState where
  slots : List Slot
  history : List ArchRecord
  stateSaves : Nat
  historySaves : Nat
deriving DecidableEq, Repr

/-- The "Transfer" log message
(`f"Transferred {src} -> {dest}. Loss: {loss}L ({pct:.1f}%). New Vol: {vol}L"`;
number formatting abstracted by `toString`). -/
def transfer_msg (src_name dest_name : String) (loss pct new_vol : ℚ) : String :=
  "Transferred " ++ src_name ++ " -> " ++ dest_name ++ ". Loss: " ++
    toString loss ++ "L (" ++ toString pct ++ "%). New Vol: " ++
    toString new_vol ++ "L"

/-- `FermenterManager.transfer` (source lines 671-715).  `none` models the
uncaught exceptions of the source: an out-of-range index (`IndexError` on
`self.slots[...]`) or an empty source slot (`AttributeError` on
`brew.volume` when `brew` is `None`).  Both slot lookups and the
`brew.volume` read happen before the two validation checks, exactly as in
the source. -/
def transfer (now : String) (src_idx dest_idx : Nat) (vol_loss : ℚ)
    (st : MState) : Option (Bool × MState) :=
  match st.slots[src_idx]?, st.slots[dest_idx]? with
  | some src_slot, some dest_slot =>
    match src_slot.brew with
    | some brew =>
      let old_vol := brew.volume
      if vol_loss < 0 then some (false, st)
      else if old_vol < vol_loss then some (false, st)
      else
        let new_vol := old_vol - vol_loss
        let loss_pct := if 0 < old_vol then vol_loss / old_vol * 100 else 0
        let brew1 : Brew := { brew with volume := round2 new_vol }
        let brew2 := add_event now "Transfer"
          (transfer_msg src_slot.name dest_slot.name vol_loss loss_pct brew1.volume) brew1
        some (true,
          { st with
            slots := (st.slots.set dest_idx { dest_slot with brew := some brew2 }).set
                       src_idx { src_slot with brew := none }
            stateSaves := st.stateSaves + 1 })
    | none => none
  | _, _ => none

/-- `FermenterManager.archive_brew` (source lines 652-669).  On an occupied
slot: append the "Lifecycle: Archived to History" event, serialize, tag with
`archived_from` = the slot's name, insert at the front of history, save
history, clear the slot, save state.  On an empty slot: only clear (already
empty) and save state.  `none` models `IndexError` on a bad index. -/
def archive_brew (now : String) (idx : Nat) (st : MState) : Option MState :=
  match st.slots[idx]? with
  | some slot =>
    match slot.brew with
    | some b =>
      let b2 := add_event now "Lifecycle" "Archived to History" b
      some { st with
             history := ⟨to_dict b2, slot.name⟩ :: st.history
             historySaves := st.historySaves + 1
             slots := st.slots.set idx ⟨slot.name, none⟩
             stateSaves := st.stateSaves + 1 }
    | none =>
      some { st with
             slots := st.slots.set idx ⟨slot.name, none⟩
             stateSaves := st.stateSaves + 1 }
  | none => none

/-! ## `save_history` (source lines 775-796): atomic-write model

The relevant file-system state is the content of the history file and of the
temporary file `brew_history.json.tmp`.  The try-body is the step sequence

1. `open(temp_file, 'w')`   (creates/truncates the temp file)
2. `json.dump(...); f.flush()`  (temp file now holds the serialized history)
3. `os.fsync(...)`          (no state change in this model)
4. *(close of the `with` block)*
5. `os.replace(temp_file, HISTORY_FILE)`  (atomic rename)

A simulated I/O failure is injected as `failAfter = some k`: steps `1..k`
completed, then an exception was raised; the `except` handler prints the
error and removes the temp file if it exists.  `failAfter = none` is the
success path.  The function is total: the `except Exception` clause means no
exception propagates to the caller. -/

/-- File-system state seen by `save_history`. -/
structure FS where
  hist : String
  tmp : Option String
deriving DecidableEq, Repr

/-- `FermenterManager.save_history` under fault injection. -/
def save_history (content : String) (failAfter : Option Nat) (fs : FS) : FS :=
  match failAfter with
  | none => { hist := content, tmp := none }
  | some k =>
    let fs1 := if 1 ≤ k then { fs with tmp := some "" } else fs
    let fs2 := if 2 ≤ k then { fs1 with tmp := some content } else fs1
    let fs3 := if 5 ≤ k then ({ hist := content, tmp := none } : FS) else fs2
    if fs3.tmp.isSome then { fs3 with tmp := none } else fs3

/-! ## Time utilities: `human_delta` (source lines 142-161) and `fmt` (126-140)

Inputs are modelled by `DTInput`: absent (`None`), a string, an aware
datetime (as integer seconds since the epoch), or a naive datetime.
`Except String α` models raising: `.error` is an exception escaping the
function.  `human_delta` checks only `if not dt` and then computes
`now_utc() - dt`; subtracting a (nonempty) string or a naive datetime from
an aware datetime raises `TypeError` in Python. -/

inductive DTInput where
  | absent
  | str (s : String)
  | aware (t : Int)
  | naive (t : Int)
deriving DecidableEq, Repr

/-- `human_delta` (the spec's `human_elapsed`), with `now` the current UTC
time in seconds.  Python `//` and `%` are floor division/modulus
(`Int.fdiv` / `Int.fmod`). -/
def human_delta (now : Int) : DTInput → Except String String
  | .absent => .ok "-"
  | .str s => if s = "" then .ok "-" else .error "TypeError"
  | .naive _ => .error "TypeError"
  | .aware t =>
    let total := now - t
    let days := Int.fdiv total 86400
    let rem1 := Int.fmod total 86400
    let hours := Int.fdiv rem1 3600
    let rem2 := Int.fmod rem1 3600
    let minutes := Int.fdiv rem2 60
    .ok (toString days ++ "d, " ++ toString hours ++ "h, " ++ toString minutes ++ "m")

/-- `fmt` (the spec's `format_local`).  `parse_iso` (library
`datetime.fromisoformat` + UTC defaulting) is threaded as a parameter; it
never raises, returning `none` on malformed input.  `strf` abstracts
`dt.astimezone(LOCAL_ZONE).strftime(DATE_DISPLAY_FMT)`, which does not raise
on any datetime. -/
def fmt (parseIso : String → Option Int) (strf : Int → String) :
    DTInput → Except String String
  | .absent => .ok "-"
  | .str s =>
    if s = "" then .ok "-"
    else
      match parseIso s with
      | none => .ok "-"
      | some t => .ok (strf t)
  | .aware t => .ok (strf t)
  | .naive t => .ok (strf t)

/-! ## Gravity extraction (`ChartWindow._extract_gravity_data`, lines 383-443)

The regex `(\d\.\d{2,})|\b([01]?\d{3})\b` is modelled directly over the
character list.  `re.search` returns the match at the leftmost starting
position; at a given position the first alternative (a decimal with at least
two fractional digits) is tried before the second (a word-bounded three- or
four-digit group, a four-digit group having to start with `0` or `1`).
`\d{2,}` is greedy and nothing follows it in its alternative, so it simply
takes the maximal digit run.  Python's `\w` is alphanumeric-or-underscore on
this ASCII data. -/

def isDigitC (c : Char) : Bool := c.isDigit

def isWordC (c : Char) : Bool := c.isAlphanum || c = '_'

def digitVal (c : Char) : ℕ := c.toNat - '0'.toNat

def natOfDigits (ds : List Char) : ℕ := ds.foldl (fun a c => a * 10 + digitVal c) 0

/-- First alternative `(\d\.\d{2,})`, anchored at the current position:
a digit, a dot, then a greedy run of at least two digits.  Returns the
matched value. -/
def decMatch : List Char → Option ℚ
  | c :: '.' :: rest =>
    if isDigitC c then
      let ds := rest.takeWhile isDigitC
      if 2 ≤ ds.length then
        some ((digitVal c : ℚ) + (natOfDigits ds : ℚ) / ((10 : ℚ) ^ ds.length))
      else none
    else none
  | _ => none

/-- Is the next character (if any) a word character?  Used for the trailing
`\b`: a boundary after a digit holds iff the next character is absent or a
non-word character. -/
def nextIsWord : List Char → Bool
  | [] => false
  | c :: _ => isWordC c

/-- The `[01]?`-empty fallback of the second alternative: exactly three
digits followed by a word boundary. -/
def tryThree : List Char → Option ℚ
  | c0 :: c1 :: c2 :: rest =>
    if isDigitC c0 && isDigitC c1 && isDigitC c2 && !nextIsWord rest then
      some ((natOfDigits [c0, c1, c2] : ℚ) / 1000)
    else none
  | _ => none

/-- Second alternative `\b([01]?\d{3})\b`, anchored at the current position.
`prevWord` says whether the previous character is a word character: since
the group must begin with a digit (a word character), the leading `\b`
reduces to "previous character absent or non-word".  The greedy `[01]?`
first tries to consume a leading `0`/`1` (four digits total), backtracking
to the empty option (three digits) if the trailing `\b` fails. -/
def intMatch (prevWord : Bool) (cs : List Char) : Option ℚ :=
  if prevWord then none
  else
    match cs with
    | c0 :: c1 :: c2 :: c3 :: rest =>
      if (c0 = '0' || c0 = '1') && isDigitC c1 && isDigitC c2 && isDigitC c3 &&
          !nextIsWord rest then
        some ((natOfDigits [c0, c1, c2, c3] : ℚ) / 1000)
      else tryThree (c0 :: c1 :: c2 :: c3 :: rest)
    | cs' => tryThree cs'

/-- `re.search` over the text: try each starting position left to right; at
each position try the decimal alternative, then the integer alternative. -/
def gravSearch : Bool → List Char → Option ℚ
  | _, [] => none
  | prevWord, c :: rest =>
    match decMatch (c :: rest) with
    | some q => some q
    | none =>
      match intMatch prevWord (c :: rest) with
      | some q => some q
      | none => gravSearch (isWordC c) rest

/-- `gravity_regex.search(text)` followed by the group-1 / group-2 value
extraction of the source. -/
def gravityValue (text : List Char) : Option ℚ := gravSearch false text

def lowerL (cs : List Char) : List Char := cs.map Char.toLower

def upperL (cs : List Char) : List Char := cs.map Char.toUpper

def startsWithL : List Char → List Char → Bool
  | [], _ => true
  | _ :: _, [] => false
  | p :: ps, c :: cs => p == c && startsWithL ps cs

/-- Python's substring containment `pat in hay`. -/
def containsL (hay pat : List Char) : Bool :=
  match hay with
  | [] => startsWithL pat []
  | _ :: rest => startsWithL pat hay || containsL rest pat

/-- The candidate filter: `entry_type == 'Gravity Reading' or any(keyword in
text.lower() for keyword in ['gravity', 'og', 'fg'])`. -/
def is_gravity_candidate (e : LogEntry) : Bool :=
  e.type == "Gravity Reading" ||
    containsL (lowerL e.text.toList) "gravity".toList ||
    containsL (lowerL e.text.toList) "og".toList ||
    containsL (lowerL e.text.toList) "fg".toList

/-- Label assignment: `"OG"` if the uppercased text contains `OG` but not
`FG`, `"FG"` if it contains `FG`, else `"Reading"`. -/
def gravity_label (text : List Char) : String :=
  let up := upperL text
  if containsL up "OG".toList && !containsL up "FG".toList then "OG"
  else if containsL up "FG".toList then "FG"
  else "Reading"

/-- Processing of a single log entry inside the extraction loop: candidate
filter, timestamp parse (entries with unparseable timestamps are dropped),
regex extraction (entries matching neither alternative are dropped), and the
plausibility filter `0.990 <= gravity <= 1.200`.  `parse` models
`parse_iso`, timestamps as integers. -/
def gravity_point (parse : String → Option Int) (e : LogEntry) :
    Option (Int × ℚ × String) :=
  if is_gravity_candidate e then
    match parse e.time with
    | none => none
    | some t =>
      match gravityValue e.text.toList with
      | none => none
      | some g =>
        if 990/1000 ≤ g ∧ g ≤ 1200/1000 then some (t, g, gravity_label e.text.toList)
        else none
  else none

/-- Stable insertion into a timestamp-sorted list (a new point goes after
existing points with the same timestamp, as Python's stable `sort`). -/
def insertPoint (p : Int × ℚ × String) : List (Int × ℚ × String) → List (Int × ℚ × String)
  | [] => [p]
  | q :: qs => if q.1 ≤ p.1 then q :: insertPoint p qs else p :: q :: qs

/-- Stable sort by timestamp (`data.sort(key=lambda x: x[0])`). -/
def sortPoints (l : List (Int × ℚ × String)) : List (Int × ℚ × String) :=
  l.foldr insertPoint []

/-- `_extract_gravity_data`: seed with `(start_date, og, "OG")` when
`og > 0`, process the log entries in order, sort by timestamp. -/
def extract_gravity_data (parse : String → Option Int) (og : ℚ)
    (start_date : String) (log : List LogEntry) : List (Int × ℚ × String) :=
  let seed :=
    if 0 < og then
      match parse start_date with
      | some t => [(t, og, "OG")]
      | none => []
    else []
  sortPoints (seed ++ log.filterMap (gravity_point parse))

/-- Modelled from the spec: the extraction precedence as the claim words it —
"a decimal with two or more fractional digits if one is present anywhere in
the text; otherwise a bare 3-4 digit integer group divided by 1000".  Used
only to compare against the source's `gravityValue`. -/
def decSearchAnywhere : List Char → Option ℚ
  | [] => none
  | c :: rest =>
    match decMatch (c :: rest) with
    | some q => some q
    | none => decSearchAnywhere rest

/-- Modelled from the spec: integer-group search used by
`claimed_gravity_value` when no decimal is present anywhere. -/
def intSearchAnywhere : Bool → List Char → Option ℚ
  | _, [] => none
  | prevWord, c :: rest =>
    match intMatch prevWord (c :: rest) with
    | some q => some q
    | none => intSearchAnywhere (isWordC c) rest

/-- Modelled from the spec: the claim's stated precedence — any decimal in
the text wins over any integer group. -/
def claimed_gravity_value (text : List Char) : Option ℚ :=
  match decSearchAnywhere text with
  | some q => some q
  | none => intSearchAnywhere false text

/-! ## `load_state` (source lines 721-754) over a JSON value model

`load_state` reads arbitrary JSON, so slots and brews reconstructed from it
hold raw JSON values (Python assigns whatever the file contained to the
attributes, with no type check).  `JVal` models a parsed JSON value;
`RawBrew` is a `Brew` whose attributes are raw JSON values, exactly what
`Brew(**kwargs)` produces on JSON input.  `Except Unit _` models the
exceptions that the surrounding `try` of `load_state` catches:
`Brew(**item)` raises `TypeError` when `item` is a truthy non-mapping, and
`self.log.append(...)` raises `AttributeError` when the supplied `log` value
is falsy but not a list. -/

inductive JVal where
  | null
  | bool (b : Bool)
  | num (q : ℚ)
  | str (s : String)
  | arr (xs : List JVal)
  | obj (fields : List (String × JVal))

/-- Python truthiness of a JSON value. -/
def jTruthy : JVal → Bool
  | .null => false
  | .bool b => b
  | .num q => q != 0
  | .str s => s != ""
  | .arr xs => !xs.isEmpty
  | .obj fs => !fs.isEmpty

/-- `kwargs.get(key)`: first binding of the key, if any. -/
def jGet (fs : List (String × JVal)) (k : String) : Option JVal :=
  match fs with
  | [] => none
  | (k', v) :: rest => if k' == k then some v else jGet rest k

/-- `kwargs.get(key, default)`. -/
def jGetD (fs : List (String × JVal)) (k : String) (d : JVal) : JVal :=
  (jGet fs k).getD d

/-- A crude `str()` for JSON values, used only inside the synthesized
"Created" log text (its exact rendering is irrelevant to every claim). -/
def jToStr : JVal → String
  | .null => "None"
  | .bool true => "True"
  | .bool false => "False"
  | .num q => toString q
  | .str s => s
  | .arr _ => "<list>"
  | .obj _ => "<dict>"

/-- A brew reconstructed from JSON: the attributes hold the raw JSON values
that `Brew.__init__` stored. -/
structure RawBrew where
  id : JVal
  name : JVal
  category : JVal
  recipe : JVal
  notes : JVal
  start_date : JVal
  stage : JVal
  volume : JVal
  original_volume : JVal
  og : JVal
  fg : JVal
  ph : JVal
  temp : JVal
  log : JVal

/-- Ambient data threaded into brew construction: the current time
(`iso_now()`), the generated id (`brew_{ms}`), and the configured defaults
`CATEGORIES[0]` / `STAGES[0]` (or their hardcoded fallbacks). -/
structure Ctx where
  now : String
  genId : String
  cat0 : String
  stage0 : String

/-- `Brew.__init__(**kwargs)` on a JSON mapping (the body of
`Brew.from_dict` after its emptiness guard).  `id` and `start_date` use
`or`-defaulting (regenerate on falsy); every other scalar uses
`kwargs.get(key, default)`; `original_volume` defaults to the just-assigned
`volume`.  A falsy `log` triggers `add_event`, which appends to `self.log`
and therefore raises (`.error`) unless that falsy value is the empty list. -/
def brewFromKwargs (ctx : Ctx) (fs : List (String × JVal)) : Except Unit RawBrew :=
  let idv := jGetD fs "id" .null
  let idv := if jTruthy idv then idv else .str ctx.genId
  let namev := jGetD fs "name" (.str "Untitled")
  let categoryv := jGetD fs "category" (.str ctx.cat0)
  let recipev := jGetD fs "recipe" (.str "")
  let notesv := jGetD fs "notes" (.str "")
  let sdv := jGetD fs "start_date" .null
  let sdv := if jTruthy sdv then sdv else .str ctx.now
  let stagev := jGetD fs "stage" (.str ctx.stage0)
  let volumev := jGetD fs "volume" (.num 0)
  let ovolv := jGetD fs "original_volume" volumev
  let ogv := jGetD fs "og" (.num 0)
  let fgv := jGetD fs "fg" (.num 0)
  let phv := jGetD fs "ph" (.num 0)
  let tempv := jGetD fs "temp" (.num 0)
  let logv := jGetD fs "log" (.arr [])
  let mk := fun lg => RawBrew.mk idv namev categoryv recipev notesv sdv stagev
                        volumev ovolv ogv fgv phv tempv lg
  if jTruthy logv then .ok (mk logv)
  else
    match logv with
    | .arr [] =>
      .ok (mk (.arr [.obj [("time", .str ctx.now), ("type", .str "Lifecycle"),
        ("text", .str ("Created: " ++ jToStr namev ++ ". Start Vol: " ++
          jToStr volumev ++ "L"))]]))
    | _ => .error ()

/-- `Brew.from_dict(d)`: `None` on a falsy argument, `Brew(**d)` otherwise —
which raises `TypeError` (`.error`) when `d` is a truthy non-mapping. -/
def brewFromJson (ctx : Ctx) (j : JVal) : Except Unit (Option RawBrew) :=
  if jTruthy j then
    match j with
    | .obj fs => (brewFromKwargs ctx fs).map some
    | _ => .error ()
  else .ok none

/-- A slot as produced by `load_state`: the name is the raw JSON value the
file supplied (legacy migration synthesizes a string). -/
structure RawSlot where
  name : JVal
  brew : Option RawBrew

/-- The legacy branch of the `load_state` loop ("Old format detected:
auto-assign default name"): the element itself is the brew payload
(`Brew.from_dict(item) if item else None`) and the name is synthesized from
the position. -/
def legacySlotE (ctx : Ctx) (i : Nat) (item : JVal) : Except Unit RawSlot :=
  if jTruthy item then
    (brewFromJson ctx item).map
      (fun ob => ⟨.str ("Fermenter " ++ toString (i + 1)), ob⟩)
  else .ok ⟨.str ("Fermenter " ++ toString (i + 1)), none⟩

/-- The body of the per-element branch of the `load_state` loop, at element
index `i`: an element shaped `{name, brew}` (a mapping with both keys) keeps
its name, with the brew reconstructed from `item['brew']` when that is
truthy; any other element takes the legacy branch. -/
def slotOfItem (ctx : Ctx) (i : Nat) (item : JVal) : Except Unit RawSlot :=
  match item with
  | .obj fs =>
    if (jGet fs "name").isSome && (jGet fs "brew").isSome then
      let bv := jGetD fs "brew" .null
      if jTruthy bv then
        (brewFromJson ctx bv).map (fun ob => ⟨jGetD fs "name" .null, ob⟩)
      else .ok ⟨jGetD fs "name" .null, none⟩
    else legacySlotE ctx i (.obj fs)
  | _ => legacySlotE ctx i item

/-- The `for i, item in enumerate(data)` loop building `cleaned_slots`,
starting at index `i`; the first raised exception aborts the whole loop. -/
def loadSlotsE (ctx : Ctx) : Nat → List JVal → Except Unit (List RawSlot)
  | _, [] => .ok []
  | i, item :: rest =>
    match slotOfItem ctx i item with
    | .error e => .error e
    | .ok s =>
      match loadSlotsE ctx (i + 1) rest with
      | .error e => .error e
      | .ok ss => .ok (s :: ss)

/-- The default slot list used when the state file is missing, not a list,
or any exception occurs during the load. -/
def defaultSlots (n : Nat) : List RawSlot :=
  (List.range n).map (fun i => ⟨.str ("Fermenter " ++ toString (i + 1)), none⟩)

/-- `FermenterManager.load_state` on parsed file content `data`
(`defaultCount` models `DEFAULT_SLOT_COUNT`): a list is processed element by
element; anything else, or any exception while processing, yields the
default slots. -/
def load_state (ctx : Ctx) (data : JVal) (defaultCount : Nat) : List RawSlot :=
  match data with
  | .arr items =>
    match loadSlotsE ctx 0 items with
    | .ok slots => slots
    | .error _ => defaultSlots defaultCount
  | _ => defaultSlots defaultCount

/-- Indexed map used to state what the load produces per element. -/
def mapWithIndex (f : Nat → α → β) : Nat → List α → List β
  | _, [] => []
  | i, a :: as => f i a :: mapWithIndex f (i + 1) as

/-- The brew payload an element contributes when reconstruction does not
raise (`.error` collapses to an empty slot; it never occurs under
`elemOk`). -/
def exceptBrewOpt (x : Except Unit (Option RawBrew)) : Option RawBrew :=
  match x with
  | .ok ob => ob
  | .error _ => none

/-- Modelled from the spec: the slot the claim says element `i` produces —
`{name, brew}`-shaped elements keep their name with `brew` reconstructed
from its mapping, all other elements get the positional name
`"Fermenter {i+1}"` and the element itself as brew payload (empty if
falsy). -/
def claimedSlot (ctx : Ctx) (i : Nat) (item : JVal) : RawSlot :=
  match item with
  | .obj fs =>
    if (jGet fs "name").isSome && (jGet fs "brew").isSome then
      let bv := jGetD fs "brew" .null
      ⟨jGetD fs "name" .null,
       if jTruthy bv then exceptBrewOpt (brewFromJson ctx bv) else none⟩
    else
      ⟨.str ("Fermenter " ++ toString (i + 1)),
       if jTruthy item then exceptBrewOpt (brewFromJson ctx item) else none⟩
  | _ =>
    ⟨.str ("Fermenter " ++ toString (i + 1)),
     if jTruthy item then exceptBrewOpt (brewFromJson ctx item) else none⟩

/-- Whether an `Except` computation succeeded. -/
def isOkB {ε α : Type _} (x : Except ε α) : Bool :=
  match x with
  | .ok _ => true
  | .error _ => false

/-- Decidable "this element loads without raising" (whether `slotOfItem`
succeeds does not depend on the position, only the synthesized name does). -/
def elemOk (ctx : Ctx) (item : JVal) : Bool := isOkB (slotOfItem ctx 0 item)

/-! ## Concrete fixtures used by witnesses and counterexamples -/

/-- A brew occupying a slot in the witness states. -/
def b_fix : Brew :=
  ⟨"brew_1", "Batch A", "Beer", "", "", "2020-01-01T00:00:00+00:00", "Primary",
   10, 10, 0, 0, 0, 0, [⟨"t0", "Lifecycle", "Created"⟩]⟩

/-- A reachable brew whose log has been fully emptied by
`delete_log_entry`. -/
def b_nolog : Brew :=
  ⟨"brew_1", "Batch A", "Beer", "", "", "2020-01-01T00:00:00+00:00", "Primary",
   10, 10, 0, 0, 0, 0, []⟩

/-- A two-slot manager state: slot 0 occupied by `b_fix`, slot 1 empty. -/
def st_fix : MState := ⟨[⟨"F1", some b_fix⟩, ⟨"F2", none⟩], [], 0, 0⟩

/-- A context for JSON loading fixtures. -/
def ctx_fix : Ctx := ⟨"2024-01-01T00:00:00+00:00", "brew_999", "Beer", "Primary"⟩

/-!
# Theorems

First some general lemmas, then one theorem per claim (with witnesses and
counterexamples as required).
-/

theorem roundHalfEven_nonneg (q : ℚ) (h : 0 ≤ q) : 0 ≤ roundHalfEven q := by
  unfold roundHalfEven
  have hf : (0 : ℤ) ≤ ⌊q⌋ := Int.floor_nonneg.mpr h
  dsimp only
  split_ifs <;> omega

theorem round2_nonneg (q : ℚ) (h : 0 ≤ q) : 0 ≤ round2 q := by
  unfold round2
  have h1 : (0 : ℚ) ≤ q * 100 := by positivity
  have h2 : (0 : ℤ) ≤ roundHalfEven (q * 100) := roundHalfEven_nonneg _ h1
  have h3 : (0 : ℚ) ≤ ((roundHalfEven (q * 100) : ℤ) : ℚ) := by exact_mod_cast h2
  positivity

theorem roundHalfEven_le_floor_add_one (q : ℚ) : roundHalfEven q ≤ ⌊q⌋ + 1 := by
  unfold roundHalfEven
  dsimp only
  split_ifs <;> omega

theorem getElem?_some_lt {α : Type _} {l : List α} {i : Nat} {a : α}
    (h : l[i]? = some a) : i < l.length := by
  by_contra hc
  rw [List.getElem?_eq_none (Nat.le_of_not_lt hc)] at h
  exact Option.noConfusion h

/-- Claim C1: for every `transfer(src_idx, dest_idx, loss)` on distinct valid
slot indices where the source slot holds a brew and `0 ≤ loss ≤` that brew's
volume, the call returns `true`, the brew's volume afterwards equals
`round(old_volume - loss, 2)`, the source slot's brew is empty, the
destination slot holds the same brew (same identity and all other fields
unchanged), and exactly one new log entry of type `"Transfer"` has been
appended to that brew's log, all earlier entries unchanged and in order;
other slots, the history, and everything else are untouched, and the state
is saved once. -/
theorem transfer_success_spec (now : String) (st : MState) (src dest : Nat)
    (loss : ℚ) (s d : Slot) (b : Brew)
    (hs : st.slots[src]? = some s) (hd : st.slots[dest]? = some d)
    (hne : src ≠ dest) (hb : s.brew = some b)
    (h0 : 0 ≤ loss) (h1 : loss ≤ b.volume) :
    ∃ st', transfer now src dest loss st = some (true, st') ∧
      st'.slots[src]? = some ⟨s.name, none⟩ ∧
      st'.slots[dest]? = some ⟨d.name, some
        { b with
          volume := round2 (b.volume - loss)
          log := b.log ++ [⟨now, "Transfer",
            transfer_msg s.name d.name loss
              (if 0 < b.volume then loss / b.volume * 100 else 0)
              (round2 (b.volume - loss))⟩] }⟩ ∧
      (∀ j, j ≠ src → j ≠ dest → st'.slots[j]? = st.slots[j]?) ∧
      st'.history = st.history ∧
      st'.stateSaves = st.stateSaves + 1 := by
  have hsl : src < st.slots.length := getElem?_some_lt hs
  have hdl : dest < st.slots.length := getElem?_some_lt hd
  have hcomp : transfer now src dest loss st = some (true,
      ⟨(st.slots.set dest ⟨d.name, some
          { b with
            volume := round2 (b.volume - loss)
            log := b.log ++ [⟨now, "Transfer",
              transfer_msg s.name d.name loss
                (if 0 < b.volume then loss / b.volume * 100 else 0)
                (round2 (b.volume - loss))⟩] }⟩).set src ⟨s.name, none⟩,
        st.history, st.stateSaves + 1, st.historySaves⟩) := by
    unfold transfer
    rw [hs, hd]
    dsimp only
    rw [hb]
    dsimp only
    rw [if_neg (not_lt.mpr h0), if_neg (not_lt.mpr h1)]
    rfl
  refine ⟨_, hcomp, ?_, ?_, ?_, rfl, rfl⟩
  · exact List.getElem?_set_eq_of_lt _ (by rw [List.length_set]; exact hsl)
  · dsimp only
    rw [List.getElem?_set_ne hne]
    exact List.getElem?_set_eq_of_lt _ hdl
  · intro j hjs hjd
    dsimp only
    rw [List.getElem?_set_ne (Ne.symm hjs), List.getElem?_set_ne (Ne.symm hjd)]

/-- Witness for C1 at a concrete state: two slots, brew of volume 10 in slot
0, transfer to slot 1 with loss 2. -/
theorem transfer_success_spec_witness :
    st_fix.slots[0]? = some ⟨"F1", some b_fix⟩ ∧
    st_fix.slots[1]? = some ⟨"F2", none⟩ ∧
    (0 : Nat) ≠ 1 ∧
    (0 : ℚ) ≤ 2 ∧ (2 : ℚ) ≤ b_fix.volume ∧
    (∃ st', transfer "T1" 0 1 2 st_fix = some (true, st') ∧
      st'.slots[0]? = some ⟨"F1", none⟩ ∧
      st'.slots[1]? = some ⟨"F2", some
        { b_fix with
          volume := round2 (b_fix.volume - 2)
          log := b_fix.log ++ [⟨"T1", "Transfer",
            transfer_msg "F1" "F2" 2
              (if 0 < b_fix.volume then 2 / b_fix.volume * 100 else 0)
              (round2 (b_fix.volume - 2))⟩] }⟩ ∧
      (∀ j, j ≠ 0 → j ≠ 1 → st'.slots[j]? = st_fix.slots[j]?) ∧
      st'.history = st_fix.history ∧
      st'.stateSaves = st_fix.stateSaves + 1) :=
  ⟨rfl, rfl, by decide, by decide, by decide,
   transfer_success_spec "T1" st_fix 0 1 2 ⟨"F1", some b_fix⟩ ⟨"F2", none⟩ b_fix
     rfl rfl (by decide) rfl (by decide) (by decide)⟩

/-- Claim C2: `transfer` with a source brew and `loss < 0` or
`loss >` volume returns `false` and performs no mutation at all — the
returned state is the input state, so the brew, its log, both slots and the
save counters are all unchanged. -/
theorem transfer_rejects_no_mutation (now : String) (st : MState) (src dest : Nat)
    (loss : ℚ) (s d : Slot) (b : Brew)
    (hs : st.slots[src]? = some s) (hd : st.slots[dest]? = some d)
    (hb : s.brew = some b)
    (hloss : loss < 0 ∨ b.volume < loss) :
    transfer now src dest loss st = some (false, st) := by
  unfold transfer
  rw [hs, hd]
  dsimp only
  rw [hb]
  dsimp only
  rcases hloss with h | h
  · rw [if_pos h]
  · by_cases h0 : loss < 0
    · rw [if_pos h0]
    · rw [if_neg h0, if_pos h]

/-- Witness for C2: loss 11 exceeds the volume 10 of the brew in slot 0. -/
theorem transfer_rejects_no_mutation_witness :
    st_fix.slots[0]? = some ⟨"F1", some b_fix⟩ ∧
    st_fix.slots[1]? = some ⟨"F2", none⟩ ∧
    ((11 : ℚ) < 0 ∨ b_fix.volume < 11) ∧
    transfer "T1" 0 1 11 st_fix = some (false, st_fix) :=
  ⟨rfl, rfl, Or.inr (by decide),
   transfer_rejects_no_mutation "T1" st_fix 0 1 11 ⟨"F1", some b_fix⟩ ⟨"F2", none⟩ b_fix
     rfl rfl rfl (Or.inr (by decide))⟩

/-- Claim C3: `archive_brew(idx)` on a slot holding a brew prepends exactly
one record to the history — the brew's serialized mapping after the appended
"Lifecycle: Archived to History" event, plus `archived_from` equal to the
slot's current name — saves the history, empties the slot and saves state;
on an already-empty slot the history (and its save counter) is unchanged and
only the slot-clearing state save happens. -/
theorem archive_brew_spec (now : String) (st : MState) (idx : Nat) (s : Slot)
    (hs : st.slots[idx]? = some s) :
    (∀ b, s.brew = some b →
      archive_brew now idx st = some
        ⟨st.slots.set idx ⟨s.name, none⟩,
         ⟨to_dict (add_event now "Lifecycle" "Archived to History" b), s.name⟩ :: st.history,
         st.stateSaves + 1, st.historySaves + 1⟩) ∧
    (s.brew = none →
      archive_brew now idx st = some
        ⟨st.slots.set idx ⟨s.name, none⟩, st.history, st.stateSaves + 1, st.historySaves⟩) := by
  constructor
  · intro b hb
    unfold archive_brew
    rw [hs]
    dsimp only
    rw [hb]
  · intro hb
    unfold archive_brew
    rw [hs]
    dsimp only
    rw [hb]

/-- Witness for C3 at the concrete occupied slot 0 of `st_fix`. -/
theorem archive_brew_spec_witness :
    st_fix.slots[0]? = some ⟨"F1", some b_fix⟩ ∧
    ((∀ b, (⟨"F1", some b_fix⟩ : Slot).brew = some b →
      archive_brew "T2" 0 st_fix = some
        ⟨st_fix.slots.set 0 ⟨"F1", none⟩,
         ⟨to_dict (add_event "T2" "Lifecycle" "Archived to History" b), "F1"⟩ :: st_fix.history,
         st_fix.stateSaves + 1, st_fix.historySaves + 1⟩) ∧
     ((⟨"F1", some b_fix⟩ : Slot).brew = none →
      archive_brew "T2" 0 st_fix = some
        ⟨st_fix.slots.set 0 ⟨"F1", none⟩, st_fix.history,
         st_fix.stateSaves + 1, st_fix.historySaves⟩)) :=
  ⟨rfl, archive_brew_spec "T2" st_fix 0 ⟨"F1", some b_fix⟩ rfl⟩

/-- Claim C4: if the history save fails at any point before the atomic
rename completes (`failAfter = some k` with `k ≤ 4`), the pre-existing
history file is unchanged and the temporary file has been removed; the
function returns normally (it is total — the `except` clause swallows the
error). -/
theorem save_history_crash_safe (content : String) (fs : FS) (k : Nat) (hk : k ≤ 4) :
    (save_history content (some k) fs).hist = fs.hist ∧
    (save_history content (some k) fs).tmp = none := by
  unfold save_history
  dsimp only
  rw [if_neg (by omega : ¬ 5 ≤ k)]
  split_ifs <;> simp_all

/-- Witness for C4: failure right after the temp-file write (step 2), with a
stale temp file initially present. -/
theorem save_history_crash_safe_witness :
    2 ≤ 4 ∧
    ((save_history "newhist" (some 2) ⟨"oldhist", some "junk"⟩).hist = "oldhist" ∧
     (save_history "newhist" (some 2) ⟨"oldhist", some "junk"⟩).tmp = none) :=
  ⟨by decide, save_history_crash_safe "newhist" ⟨"oldhist", some "junk"⟩ 2 (by decide)⟩

/-- Claim C5, counterexample: the claim states that for every valid pair
with `og > fg` the returned ABV is non-negative, but `calc_abv(2.0, 1.0)`
(a numeric pair with `og > fg`) is negative: the denominator `1.775 - og`
is negative once `og > 1.775`. -/
theorem calc_abv_negative_on_high_og : (1 : ℚ) < 2 ∧ calc_abv 2 1 < 0 := by
  refine ⟨by norm_num, ?_⟩
  have h1 : ¬ ((2 : ℚ) ≤ 1) := by norm_num
  have h2 : ¬ ((1775/1000 : ℚ) - 2 = 0) := by norm_num
  unfold calc_abv
  rw [if_neg h1, if_neg h2]
  unfold round2
  have hfl : ⌊(7608/100 * ((2 : ℚ) - 1) / (1775/1000 - 2) * ((1 : ℚ) / (794/1000))) * 100⌋ < -1 := by
    rw [Int.floor_lt]
    norm_num
  have hle := roundHalfEven_le_floor_add_one
    ((7608/100 * ((2 : ℚ) - 1) / (1775/1000 - 2) * ((1 : ℚ) / (794/1000))) * 100)
  have hneg : roundHalfEven
      ((7608/100 * ((2 : ℚ) - 1) / (1775/1000 - 2) * ((1 : ℚ) / (794/1000))) * 100) ≤ -1 := by
    omega
  have hcast : (((roundHalfEven ((7608/100 * ((2 : ℚ) - 1) / (1775/1000 - 2) *
      ((1 : ℚ) / (794/1000))) * 100) : ℤ)) : ℚ) ≤ -1 := by exact_mod_cast hneg
  nlinarith

/-- Claim C5 as amended: `calc_abv` is a pure function (determinism is
immediate); it returns `0` whenever `og ≤ fg` and whenever `og = 1.775`
exactly; and it is non-negative for every pair in the physically valid
region `0 ≤ fg < og < 1.775` (the unrestricted claim fails for
`og > 1.775`, see the counterexample). -/
theorem calc_abv_spec :
    (∀ og fg : ℚ, og ≤ fg → calc_abv og fg = 0) ∧
    (∀ fg : ℚ, calc_abv (1775/1000) fg = 0) ∧
    (∀ og fg : ℚ, 0 ≤ fg → fg < og → og < 1775/1000 → 0 ≤ calc_abv og fg) := by
  refine ⟨?_, ?_, ?_⟩
  · intro og fg h
    unfold calc_abv
    rw [if_pos h]
  · intro fg
    unfold calc_abv
    by_cases h : (1775/1000 : ℚ) ≤ fg
    · rw [if_pos h]
    · rw [if_neg h, if_pos (by ring_nf)]
  · intro og fg h0 h1 h2
    unfold calc_abv
    have hd : (0 : ℚ) < 1775/1000 - og := by linarith
    rw [if_neg (not_le.mpr h1), if_neg hd.ne']
    exact round2_nonneg _
      (mul_nonneg (div_nonneg (mul_nonneg (by norm_num) (by linarith)) hd.le)
        (div_nonneg h0 (by norm_num)))

theorem q_one_lt_1775_over_1000 : (1 : ℚ) < 1775/1000 := by norm_num

/-- Witness for C5 (amended) at concrete inputs for each conjunct. -/
theorem calc_abv_spec_witness :
    ((1 : ℚ) ≤ 2 ∧ calc_abv 1 2 = 0) ∧
    calc_abv (1775/1000) 1 = 0 ∧
    ((0 : ℚ) ≤ 0 ∧ (0 : ℚ) < 1 ∧ (1 : ℚ) < 1775/1000 ∧ 0 ≤ calc_abv 1 0) :=
  ⟨⟨by decide, calc_abv_spec.1 1 2 (by decide)⟩,
   calc_abv_spec.2.1 1,
   ⟨by decide, by decide, q_one_lt_1775_over_1000,
    calc_abv_spec.2.2 1 0 (by decide) (by decide) q_one_lt_1775_over_1000⟩⟩

/-- Claim C6, counterexample: a Brew whose log has been emptied (reachable
via `delete_log_entry`) does not round-trip — `from_dict` synthesizes a
"Lifecycle: Created" entry for the empty log, so the reconstructed value
differs from the original. -/
theorem brew_round_trip_counterexample :
    from_dict "2024-01-01T00:00:00+00:00" "brew_999" (to_dict b_nolog) ≠ b_nolog := by
  intro h
  have hlog := congrArg Brew.log h
  simp [from_dict, to_dict, b_nolog] at hlog

/-- Claim C6 as amended: for every Brew with a non-empty id, a non-empty
start date (both guaranteed by the constructor) and at least one log entry,
serializing to the flat mapping and reconstructing yields a value equal to
the original in all fields, the log entries unchanged and in order. -/
theorem brew_round_trip (now genId : String) (b : Brew)
    (hid : b.id ≠ "") (hsd : b.start_date ≠ "") (hlog : b.log ≠ []) :
    from_dict now genId (to_dict b) = b := by
  unfold from_dict to_dict
  dsimp only
  rw [if_neg hid, if_neg hsd, if_neg hlog]

/-- Witness for C6 (amended) on the concrete brew `b_fix`. -/
theorem brew_round_trip_witness :
    b_fix.id ≠ "" ∧ b_fix.start_date ≠ "" ∧ b_fix.log ≠ [] ∧
    from_dict "2024-01-01T00:00:00+00:00" "brew_999" (to_dict b_fix) = b_fix :=
  ⟨by decide, by decide, by decide,
   brew_round_trip _ _ b_fix (by decide) (by decide) (by decide)⟩

/-- Claim C9 (code bug): the claim — and `human_delta`'s own docstring,
which declares `dt (datetime|str)` and promises `'-'` on failure — says the
time utilities never raise; but `human_delta` on a (nonempty) ISO string
raises `TypeError` (`now_utc() - dt` with a string operand).  Alongside the
failing input, the absent case does return `"-"`, an aware instant returns
the elapsed string, and `fmt` is total (every input yields some string). -/
theorem human_delta_raises_on_string :
    human_delta 0 (.str "2020-01-01T00:00:00+00:00") = .error "TypeError" ∧
    human_delta 0 .absent = .ok "-" ∧
    human_delta 100000 (.aware 0) = .ok "1d, 3h, 46m" ∧
    (∀ parseIso strf d, ∃ s, fmt parseIso strf d = .ok s) := by
  refine ⟨rfl, rfl, rfl, ?_⟩
  intro parseIso strf d
  cases d with
  | absent => exact ⟨"-", rfl⟩
  | str s =>
    unfold fmt
    dsimp only
    by_cases h : s = ""
    · rw [if_pos h]
      exact ⟨"-", rfl⟩
    · rw [if_neg h]
      cases hp : parseIso s with
      | none => exact ⟨"-", rfl⟩
      | some t => exact ⟨strf t, rfl⟩
  | aware t => exact ⟨strf t, rfl⟩
  | naive t => exact ⟨strf t, rfl⟩

/-- Claim C10: a `transfer` with `src_idx = dest_idx` on an occupied slot
and a valid loss returns `true`, yet afterwards that slot is empty — the
slot list equals the original with slot `i` emptied, so the brew is no
longer referenced by any slot — and this emptied state is persisted
(`stateSaves` incremented). -/
theorem transfer_same_slot_loses_brew (now : String) (st : MState) (i : Nat)
    (loss : ℚ) (s : Slot) (b : Brew)
    (hs : st.slots[i]? = some s) (hb : s.brew = some b)
    (h0 : 0 ≤ loss) (h1 : loss ≤ b.volume) :
    ∃ st', transfer now i i loss st = some (true, st') ∧
      st'.slots = st.slots.set i ⟨s.name, none⟩ ∧
      st'.slots[i]? = some ⟨s.name, none⟩ ∧
      st'.history = st.history ∧
      st'.stateSaves = st.stateSaves + 1 := by
  have hsl : i < st.slots.length := getElem?_some_lt hs
  have hcomp : transfer now i i loss st = some (true,
      ⟨st.slots.set i ⟨s.name, none⟩, st.history, st.stateSaves + 1, st.historySaves⟩) := by
    unfold transfer
    rw [hs]
    dsimp only
    rw [hb]
    dsimp only
    rw [if_neg (not_lt.mpr h0), if_neg (not_lt.mpr h1), List.set_set]
  refine ⟨_, hcomp, rfl, ?_, rfl, rfl⟩
  exact List.getElem?_set_eq_of_lt _ hsl

/-- Witness for C10: same-slot transfer on slot 0 of the concrete state. -/
theorem transfer_same_slot_loses_brew_witness :
    st_fix.slots[0]? = some ⟨"F1", some b_fix⟩ ∧
    (0 : ℚ) ≤ 2 ∧ (2 : ℚ) ≤ b_fix.volume ∧
    (∃ st', transfer "T1" 0 0 2 st_fix = some (true, st') ∧
      st'.slots = st_fix.slots.set 0 ⟨"F1", none⟩ ∧
      st'.slots[0]? = some ⟨"F1", none⟩ ∧
      st'.history = st_fix.history ∧
      st'.stateSaves = st_fix.stateSaves + 1) :=
  ⟨rfl, by decide, by decide,
   transfer_same_slot_loses_brew "T1" st_fix 0 2 ⟨"F1", some b_fix⟩ b_fix
     rfl rfl (by decide) (by decide)⟩

/-- Claim C7, counterexample: the claim's precedence — "a decimal with two
or more fractional digits if one is present anywhere in the text; otherwise
a bare 3-4 digit group / 1000" — disagrees with the code.  `re.search`
returns the leftmost match of the alternation, so in
`"Gravity 1050 and 1.052"` the earlier integer group `1050` wins over the
later decimal `1.052`: the code yields the point value `1.050` where the
claimed precedence yields `1.052`. -/
theorem gravity_precedence_counterexample :
    gravity_point (fun _ => some 0) ⟨"t0", "General Note", "Gravity 1050 and 1.052"⟩ =
      some (0, 1050/1000, "Reading") ∧
    claimed_gravity_value ("Gravity 1050 and 1.052".toList) = some (1052/1000) ∧
    (1050/1000 : ℚ) ≠ 1052/1000 := by
  have hint : ((natOfDigits ['1','0','5','0'] : ℚ) / 1000) = 1050/1000 := by
    rw [show natOfDigits ['1','0','5','0'] = 1050 from rfl]
    norm_num
  have hdec : ((digitVal '1' : ℚ) + (natOfDigits ['0','5','2'] : ℚ) / ((10 : ℚ) ^ 3)) = 1052/1000 := by
    rw [show digitVal '1' = 1 from rfl, show natOfDigits ['0','5','2'] = 52 from rfl]
    norm_num
  refine ⟨?_, ?_, by norm_num⟩
  · unfold gravity_point
    rw [if_pos (show is_gravity_candidate ⟨"t0", "General Note", "Gravity 1050 and 1.052"⟩ = true
      from rfl)]
    dsimp only
    rw [show gravityValue ("Gravity 1050 and 1.052".toList) =
      some ((natOfDigits ['1','0','5','0'] : ℚ) / 1000) from rfl]
    dsimp only
    rw [hint]
    rw [if_pos (by norm_num : (990/1000 : ℚ) ≤ 1050/1000 ∧ (1050/1000 : ℚ) ≤ 1200/1000)]
    rw [show gravity_label ("Gravity 1050 and 1.052".toList) = "Reading" from rfl]
  · rw [show claimed_gravity_value ("Gravity 1050 and 1.052".toList) =
      some ((digitVal '1' : ℚ) + (natOfDigits ['0','5','2'] : ℚ) / ((10 : ℚ) ^ 3)) from rfl]
    rw [hdec]

/-- Claim C7 as amended: per log entry, the extracted gravity is the value
of the *leftmost* regex match (a decimal with two or more fractional digits
being preferred over a word-bounded 3-4 digit group only at the same start
position, not "anywhere in the text"); a candidate matching neither
alternative is dropped, and every point produced lies in [0.990, 1.200].
In particular `"Gravity reading: 1.052"` at a parseable time `t` yields
`(t, 1.052, "Reading")` and `"Hit OG 1050"` yields `(t, 1.050, "OG")`. -/
theorem gravity_extraction_spec :
    (∀ parse tm t, parse tm = some t →
      gravity_point parse ⟨tm, "Gravity Reading", "Gravity reading: 1.052"⟩ =
        some (t, 1052/1000, "Reading")) ∧
    (∀ parse tm t, parse tm = some t →
      gravity_point parse ⟨tm, "General Note", "Hit OG 1050"⟩ =
        some (t, 1050/1000, "OG")) ∧
    (∀ parse e t g l, gravity_point parse e = some (t, g, l) →
      990/1000 ≤ g ∧ g ≤ 1200/1000) ∧
    (∀ parse e, gravityValue e.text.toList = none → gravity_point parse e = none) := by
  have hdec : ((digitVal '1' : ℚ) + (natOfDigits ['0','5','2'] : ℚ) / ((10 : ℚ) ^ 3)) = 1052/1000 := by
    rw [show digitVal '1' = 1 from rfl, show natOfDigits ['0','5','2'] = 52 from rfl]
    norm_num
  have hint : ((natOfDigits ['1','0','5','0'] : ℚ) / 1000) = 1050/1000 := by
    rw [show natOfDigits ['1','0','5','0'] = 1050 from rfl]
    norm_num
  refine ⟨?_, ?_, ?_, ?_⟩
  · intro parse tm t hp
    unfold gravity_point
    rw [if_pos (show is_gravity_candidate ⟨tm, "Gravity Reading", "Gravity reading: 1.052"⟩ = true
      from rfl)]
    dsimp only
    rw [hp]
    dsimp only
    rw [show gravityValue ("Gravity reading: 1.052".toList) =
      some ((digitVal '1' : ℚ) + (natOfDigits ['0','5','2'] : ℚ) / ((10 : ℚ) ^ 3)) from rfl]
    dsimp only
    rw [hdec]
    rw [if_pos (by norm_num : (990/1000 : ℚ) ≤ 1052/1000 ∧ (1052/1000 : ℚ) ≤ 1200/1000)]
    rw [show gravity_label ("Gravity reading: 1.052".toList) = "Reading" from rfl]
  · intro parse tm t hp
    unfold gravity_point
    rw [if_pos (show is_gravity_candidate ⟨tm, "General Note", "Hit OG 1050"⟩ = true from rfl)]
    dsimp only
    rw [hp]
    dsimp only
    rw [show gravityValue ("Hit OG 1050".toList) =
      some ((natOfDigits ['1','0','5','0'] : ℚ) / 1000) from rfl]
    dsimp only
    rw [hint]
    rw [if_pos (by norm_num : (990/1000 : ℚ) ≤ 1050/1000 ∧ (1050/1000 : ℚ) ≤ 1200/1000)]
    rw [show gravity_label ("Hit OG 1050".toList) = "OG" from rfl]
  · intro parse e t g l h
    unfold gravity_point at h
    split at h
    · split at h
      · exact Option.noConfusion h
      · split at h
        · exact Option.noConfusion h
        · split at h
          · rename_i hrange
            simp only [Option.some.injEq, Prod.mk.injEq] at h
            obtain ⟨-, hg, -⟩ := h
            rw [← hg]
            exact hrange
          · exact Option.noConfusion h
    · exact Option.noConfusion h
  · intro parse e h
    unfold gravity_point
    by_cases hc : is_gravity_candidate e = true
    · rw [if_pos hc]
      cases hp : parse e.time with
      | none => rfl
      | some t =>
        rw [h]
    · rw [if_neg hc]

/-- Witness for C7 (amended): concrete parses, entries and points for each
part of the conjunction (the range bound applied to the point produced by
the first example). -/
theorem gravity_extraction_spec_witness :
    ((fun _ : String => some (5 : Int)) "tm1" = some 5 ∧
     gravity_point (fun _ => some (5 : Int)) ⟨"tm1", "Gravity Reading", "Gravity reading: 1.052"⟩ =
       some (5, 1052/1000, "Reading")) ∧
    ((fun _ : String => some (7 : Int)) "tm2" = some 7 ∧
     gravity_point (fun _ => some (7 : Int)) ⟨"tm2", "General Note", "Hit OG 1050"⟩ =
       some (7, 1050/1000, "OG")) ∧
    ((990/1000 : ℚ) ≤ 1052/1000 ∧ (1052/1000 : ℚ) ≤ 1200/1000) ∧
    (gravityValue ("check gravity tomorrow".toList) = none ∧
     gravity_point (fun _ => some (0 : Int)) ⟨"tm3", "General Note", "check gravity tomorrow"⟩ = none) :=
  ⟨⟨rfl, gravity_extraction_spec.1 (fun _ => some 5) "tm1" 5 rfl⟩,
   ⟨rfl, gravity_extraction_spec.2.1 (fun _ => some 7) "tm2" 7 rfl⟩,
   gravity_extraction_spec.2.2.1 (fun _ => some 5)
     ⟨"tm1", "Gravity Reading", "Gravity reading: 1.052"⟩ 5 (1052/1000) "Reading"
     (gravity_extraction_spec.1 (fun _ => some 5) "tm1" 5 rfl),
   ⟨rfl, gravity_extraction_spec.2.2.2 (fun _ => some 0)
     ⟨"tm3", "General Note", "check gravity tomorrow"⟩ rfl⟩⟩

theorem isOkB_map {ε α β : Type _} (f : α → β) (x : Except ε α) :
    isOkB (x.map f) = isOkB x := by
  cases x <;> rfl

theorem legacySlotE_ok_eq (ctx : Ctx) (i : Nat) (item : JVal) (s : RawSlot)
    (h : legacySlotE ctx i item = .ok s) :
    (⟨.str ("Fermenter " ++ toString (i + 1)),
      if jTruthy item then exceptBrewOpt (brewFromJson ctx item) else none⟩ : RawSlot) = s := by
  unfold legacySlotE at h
  by_cases ht : jTruthy item = true
  · rw [if_pos ht] at h
    rw [if_pos ht]
    cases hb : brewFromJson ctx item with
    | ok ob =>
      rw [hb] at h
      injection h
    | error err =>
      rw [hb] at h
      exact Except.noConfusion h
  · rw [if_neg ht] at h
    rw [if_neg ht]
    injection h

theorem isOkB_legacySlotE (ctx : Ctx) (i j : Nat) (item : JVal) :
    isOkB (legacySlotE ctx i item) = isOkB (legacySlotE ctx j item) := by
  unfold legacySlotE
  by_cases ht : jTruthy item = true
  · rw [if_pos ht, if_pos ht, isOkB_map, isOkB_map]
  · rw [if_neg ht, if_neg ht]
    rfl

theorem isOkB_slotOfItem (ctx : Ctx) (i j : Nat) (item : JVal) :
    isOkB (slotOfItem ctx i item) = isOkB (slotOfItem ctx j item) := by
  cases item with
  | obj fs =>
    unfold slotOfItem
    dsimp only
    by_cases hnb : ((jGet fs "name").isSome && (jGet fs "brew").isSome) = true
    · rw [if_pos hnb, if_pos hnb]
    · rw [if_neg hnb, if_neg hnb]
      exact isOkB_legacySlotE ctx i j (.obj fs)
  | null => exact isOkB_legacySlotE ctx i j .null
  | bool b => exact isOkB_legacySlotE ctx i j (.bool b)
  | num q => exact isOkB_legacySlotE ctx i j (.num q)
  | str s => exact isOkB_legacySlotE ctx i j (.str s)
  | arr xs => exact isOkB_legacySlotE ctx i j (.arr xs)

theorem exists_ok_of_elemOk (ctx : Ctx) (item : JVal)
    (h : elemOk ctx item = true) (i : Nat) :
    ∃ s, slotOfItem ctx i item = .ok s := by
  unfold elemOk at h
  rw [← isOkB_slotOfItem ctx i 0 item] at h
  cases hx : slotOfItem ctx i item with
  | ok s => exact ⟨s, rfl⟩
  | error e =>
    rw [hx] at h
    exact Bool.noConfusion h

theorem slotOfItem_ok_eq_claimedSlot (ctx : Ctx) (i : Nat) (item : JVal) (s : RawSlot)
    (h : slotOfItem ctx i item = .ok s) : claimedSlot ctx i item = s := by
  cases item with
  | obj fs =>
    simp only [slotOfItem] at h
    simp only [claimedSlot]
    by_cases hnb : ((jGet fs "name").isSome && (jGet fs "brew").isSome) = true
    · rw [if_pos hnb] at h
      rw [if_pos hnb]
      by_cases ht : jTruthy (jGetD fs "brew" .null) = true
      · rw [if_pos ht] at h
        rw [if_pos ht]
        cases hb : brewFromJson ctx (jGetD fs "brew" .null) with
        | ok ob =>
          rw [hb] at h
          injection h
        | error err =>
          rw [hb] at h
          exact Except.noConfusion h
      · rw [if_neg ht] at h
        rw [if_neg ht]
        injection h
    · rw [if_neg hnb] at h
      rw [if_neg hnb]
      exact legacySlotE_ok_eq ctx i (.obj fs) s h
  | null => exact legacySlotE_ok_eq ctx i .null s h
  | bool b => exact legacySlotE_ok_eq ctx i (.bool b) s h
  | num q => exact legacySlotE_ok_eq ctx i (.num q) s h
  | str str0 => exact legacySlotE_ok_eq ctx i (.str str0) s h
  | arr xs => exact legacySlotE_ok_eq ctx i (.arr xs) s h

theorem loadSlotsE_ok (ctx : Ctx) (items : List JVal)
    (h : ∀ e ∈ items, elemOk ctx e = true) :
    ∀ i, loadSlotsE ctx i items = .ok (mapWithIndex (claimedSlot ctx) i items) := by
  induction items with
  | nil => intro i; rfl
  | cons e es ih =>
    intro i
    obtain ⟨s, hs⟩ := exists_ok_of_elemOk ctx e (h e (by simp)) i
    unfold loadSlotsE
    rw [hs]
    dsimp only
    rw [ih (fun x hx => h x (by simp [hx])) (i + 1)]
    rw [show mapWithIndex (claimedSlot ctx) i (e :: es) =
      claimedSlot ctx i e :: mapWithIndex (claimedSlot ctx) (i + 1) es from rfl]
    rw [slotOfItem_ok_eq_claimedSlot ctx i e s hs]

/-- Claim C8 as amended: for a state file whose content is a sequence of
elements that each load without raising (`elemOk`: falsy elements, and
mappings whose `log` entry — if present and falsy — is the empty list),
load produces one slot per element in order, exactly as `claimedSlot`
describes: `{name, brew}`-shaped elements keep their name with the brew
reconstructed from its mapping (empty when falsy), every other element is
named `"Fermenter {i+1}"` from its position and used as the brew payload
(empty when null/falsy).  A truthy non-mapping element instead raises
`TypeError` inside the loop and the whole load falls back to the default
slots (see the counterexample). -/
theorem load_state_on_ok_list (ctx : Ctx) (items : List JVal) (n : Nat)
    (h : ∀ e ∈ items, elemOk ctx e = true) :
    load_state ctx (.arr items) n = mapWithIndex (claimedSlot ctx) 0 items := by
  unfold load_state
  dsimp only
  rw [loadSlotsE_ok ctx items h 0]

/-- Witness for C8 (amended): a three-element legacy/current mixed file —
a null, a `{name, brew}` wrapper with null brew, and a bare brew mapping. -/
theorem load_state_on_ok_list_witness :
    (∀ e ∈ ([.null,
              .obj [("name", .str "Keg"), ("brew", .null)],
              .obj [("volume", .num 12)]] : List JVal), elemOk ctx_fix e = true) ∧
    load_state ctx_fix (.arr [.null,
              .obj [("name", .str "Keg"), ("brew", .null)],
              .obj [("volume", .num 12)]]) 5 =
      mapWithIndex (claimedSlot ctx_fix) 0 [.null,
              .obj [("name", .str "Keg"), ("brew", .null)],
              .obj [("volume", .num 12)]] :=
  ⟨by decide,
   load_state_on_ok_list ctx_fix [.null,
              .obj [("name", .str "Keg"), ("brew", .null)],
              .obj [("volume", .num 12)]] 5 (by decide)⟩

/-- Claim C8, counterexample: a list whose element is a truthy non-mapping
(the number `5`) does not produce "one slot per element": `Brew(**item)`
raises `TypeError`, the surrounding `try` catches it, and the whole load
falls back to the `DEFAULT_SLOT_COUNT` default slots — five slots for the
one-element file. -/
theorem load_state_truthy_nonmapping_falls_back :
    load_state ctx_fix (.arr [.num 5]) 5 = defaultSlots 5 ∧
    (load_state ctx_fix (.arr [.num 5]) 5).length ≠ 1 := by
  refine ⟨rfl, ?_⟩
  rw [show load_state ctx_fix (.arr [.num 5]) 5 = defaultSlots 5 from rfl]
  decide

end FM
